import Mathlib

/-!
Verification development for `diagnose_dwarf.py`, a diagnostic script that
dumps DWARF debug-information structure (compilation units, subprograms, PC
ranges) from a binary, cross-checks project-specific DWARF helpers, and
smoke-tests symbolic execution.

The script is embedded shallowly: external library calls (pyelftools, angr,
the project helpers) are modelled as functions/values supplied by an
environment, with fallible calls returning `Except String`.  Console output
is modelled as a list of structured `Line` values, one per `print` call in
the source; `render` maps each to the literal string the script prints.

Modelling conventions:
- DWARF attribute values are `AttrValue`: integers, strings, or byte strings
  (which the script decodes to strings for names).  Address-valued attributes
  are always integers in DWARF; `AttrValue.toNat` extracts the integer, and
  theorems about address arithmetic carry the integer-ness as a hypothesis.
- Python exceptions are `Except.error`.  Output already printed before an
  uncaught exception escapes a region is not tracked (no property here
  depends on it); what is tracked is which phases run and what a phase
  prints when it completes or when its guard catches an error.
- `sys.exit(1)` and uncaught exceptions are distinguished in `Termination`.
-/

/-- DWARF tag / attribute-name / form-class string constants used by the script. -/
def TAG_subprogram : String := "DW_TAG_subprogram"

def AT_name : String := "DW_AT_name"

def AT_ranges : String := "DW_AT_ranges"

def AT_low_pc : String := "DW_AT_low_pc"

def AT_high_pc : String := "DW_AT_high_pc"

def CLASS_address : String := "address"

def CLASS_constant : String := "constant"

/-- A DWARF attribute value: an integer, a string, or a byte string
(the script decodes byte-string names via `.decode("utf-8")`). -/
inductive AttrValue where
  | num (n : Nat)
  | str (s : String)
  | bytes (s : String)
deriving DecidableEq, Repr

/-- The integer content of an attribute value.  Address-valued DWARF
attributes are always integers; a non-integer here would raise a
`TypeError` in the Python source, which is outside the behaviours any
claim quantifies over (theorems carry `AttrValue.num` hypotheses). -/
def AttrValue.toNat : AttrValue → Nat
  | AttrValue.num n => n
  | AttrValue.str _ => 0
  | AttrValue.bytes _ => 0

/-- A DIE attribute as pyelftools exposes it: a value and a form code. -/
structure DieAttr where
  value : AttrValue
  form : String
deriving DecidableEq, Repr

/-- A debug-information entry: a tag, an attribute dictionary, and child DIEs. -/
inductive Die where
  | mk (tag : String) (attributes : List (String × DieAttr)) (children : List Die)

mutual

/-- Boolean equality on DIEs (structural, for the derived instances below). -/
def Die.beq : Die → Die → Bool
  | Die.mk t1 a1 cs1, Die.mk t2 a2 cs2 =>
    t1 == t2 && a1 == a2 && Die.beqList cs1 cs2

/-- Boolean equality on lists of DIEs. -/
def Die.beqList : List Die → List Die → Bool
  | [], [] => true
  | c :: cs, d :: ds => Die.beq c d && Die.beqList cs ds
  | _, _ => false

end

mutual

theorem Die.beq_iff : (a b : Die) → (Die.beq a b = true ↔ a = b)
  | Die.mk t1 a1 cs1, Die.mk t2 a2 cs2 => by
    simp [Die.beq, Bool.and_eq_true, beq_iff_eq, Die.beqList_iff cs1 cs2,
      Die.mk.injEq, and_assoc]

theorem Die.beqList_iff : (as bs : List Die) → (Die.beqList as bs = true ↔ as = bs)
  | [], [] => by simp [Die.beqList]
  | [], _ :: _ => by simp [Die.beqList]
  | _ :: _, [] => by simp [Die.beqList]
  | a :: as, b :: bs => by
    simp [Die.beqList, Bool.and_eq_true, Die.beq_iff a b, Die.beqList_iff as bs]

end

instance : DecidableEq Die := fun a b => decidable_of_iff _ (Die.beq_iff a b)

/-- The tag of a DIE. -/
def Die.tag : Die → String
  | Die.mk t _ _ => t

/-- The attribute dictionary of a DIE. -/
def Die.attributes : Die → List (String × DieAttr)
  | Die.mk _ a _ => a

/-- The children of a DIE (`die.iter_children()`). -/
def Die.children : Die → List Die
  | Die.mk _ _ c => c

/-- Dictionary lookup `die.attributes.get(name)` / `name in die.attributes`. -/
def attrGet (die : Die) (name : String) : Option DieAttr :=
  die.attributes.lookup name

/-- One entry of a resolved DWARF range list; each field models a possible
attribute probed by the script's `hasattr` checks. -/
structure RangeEntry where
  begin_offset : Option Nat
  end_offset : Option Nat
  begin_address : Option Nat
  end_address : Option Nat
  start_offset : Option Nat
deriving DecidableEq, Repr

/-- A compilation unit: the script only uses its top DIE. -/
structure CU where
  topDie : Die

/-- The DWARF info handle: compilation units, and the range-list resolver
(`dwarf_info.range_lists().get_range_list_at_offset(off)`), which may raise. -/
structure DwarfInfo where
  cus : List CU
  rangeListAt : Nat → Except String (List RangeEntry)

/-- One console line per `print` call in the script, carrying the data the
corresponding f-string interpolates. -/
inductive Line where
  | usage
  | analyzing (path : String)
  | pyelftoolsVersion (v : String)
  | errorNoDwarf
  | dwarfInfoFound
  | subprogramHeader (name : Option AttrValue)
  | hasRanges (offset : Nat)
  | rangeListType
  | firstRangeType
  | firstRangeAttrs
  | hasBeginOffset (v : Nat)
  | hasEndOffset (v : Nat)
  | hasBeginAddress (v : Nat)
  | hasEndAddress (v : Nat)
  | hasStartOffset (v : Nat)
  | errorProcessingRanges (e : String)
  | lowHighPc (low : Nat) (high : Nat)
  | noPcInfo (name : Option AttrValue)
  | summaryHeader
  | cuCount (n : Nat)
  | totalSubprogs (n : Nat)
  | withPcRange (n : Nat)
  | tygrHeader
  | errorTygr (e : String)
  | symHeader
  | angrVersion (v : String)
  | projectLoaded
  | architecture (a : String)
  | generatingCfg
  | cfgGenerated
  | cfgFunctionCount (n : Nat)
  | cfgModelType
  | mainFound (addr : Nat)
  | funcName (s : String)
  | funcSize (n : Nat)
  | warnMainNotFound (addr : Nat)
  | availableFunctions
  | funcListing (addr : Nat) (name : String)
  | stratHeader
  | strategyCreated
  | strategyCfgFunctions (n : Nat)
  | attemptingSymExec
  | simExecResult
  | numStateTuples (n : Nat)
  | errorSimExec (e : String)
  | errorSymPhase (e : String)
deriving DecidableEq, Repr

/-- Python `hex(n)`: `0x` followed by lowercase hexadecimal digits. -/
def hexStr (n : Nat) : String :=
  "0x" ++ (Nat.toDigits 16 n).asString

/-- Display of an attribute value inside an f-string (Python `str`). -/
def dispVal : AttrValue → String
  | AttrValue.num n => toString n
  | AttrValue.str s => s
  | AttrValue.bytes s => s

/-- Display of a possibly-absent function name inside an f-string: Python
prints `None` for an absent value. -/
def dispName : Option AttrValue → String
  | none => "None"
  | some v => dispVal v

/-- The literal string each `print` call writes (embedded newlines included;
reprs of Python objects that no claim inspects are abbreviated). -/
def render : Line → String
  | Line.usage => "Usage: python diagnose_dwarf.py <binary>"
  | Line.analyzing p => "Analyzing: " ++ p
  | Line.pyelftoolsVersion v => "pyelftools version: " ++ v
  | Line.errorNoDwarf => "ERROR: No DWARF info in binary"
  | Line.dwarfInfoFound => "DWARF info found"
  | Line.subprogramHeader n => "\n  Subprogram: " ++ dispName n
  | Line.hasRanges off => "    Has DW_AT_ranges, offset=" ++ toString off
  | Line.rangeListType => "    Range list type: <class list>"
  | Line.firstRangeType => "    First range entry type: <class RangeEntry>"
  | Line.firstRangeAttrs => "    First range entry attributes: <dir>"
  | Line.hasBeginOffset v => "    Has begin_offset: " ++ toString v
  | Line.hasEndOffset v => "    Has end_offset: " ++ toString v
  | Line.hasBeginAddress v => "    Has begin_address: " ++ toString v
  | Line.hasEndAddress v => "    Has end_address: " ++ toString v
  | Line.hasStartOffset v => "    Has start_offset: " ++ toString v
  | Line.errorProcessingRanges e => "    ERROR processing ranges: " ++ e
  | Line.lowHighPc lo hi => "    low_pc=" ++ hexStr lo ++ ", high_pc=" ++ hexStr hi
  | Line.noPcInfo n => "\n  Subprogram: " ++ dispName n ++ " - NO PC INFO"
  | Line.summaryHeader => "\n=== Summary ==="
  | Line.cuCount n => "Compilation Units: " ++ toString n
  | Line.totalSubprogs n => "Total subprograms: " ++ toString n
  | Line.withPcRange n => "Subprograms with PC range: " ++ toString n
  | Line.tygrHeader => "\n=== Testing TYGR's DWARF parsing ==="
  | Line.errorTygr e => "ERROR in TYGR parsing: " ++ e
  | Line.symHeader => "\n=== Testing Symbolic Execution ==="
  | Line.angrVersion v => "angr version: " ++ v
  | Line.projectLoaded => "Project loaded: <Project>"
  | Line.architecture a => "Architecture: " ++ a
  | Line.generatingCfg => "\nGenerating CFG..."
  | Line.cfgGenerated => "CFG generated"
  | Line.cfgFunctionCount n => "CFG functions: " ++ toString n
  | Line.cfgModelType => "CFG model type: <class CFGModel>"
  | Line.mainFound addr => "\nMain function found in CFG at " ++ hexStr addr
  | Line.funcName s => "  Function name: " ++ s
  | Line.funcSize n => "  Function size: " ++ toString n
  | Line.warnMainNotFound addr => "\nWARNING: Main function NOT found at " ++ hexStr addr
  | Line.availableFunctions => "Available functions:"
  | Line.funcListing addr name => "  " ++ hexStr addr ++ ": " ++ name
  | Line.stratHeader => "\n=== Testing LessSimpleDominatorStrategy ==="
  | Line.strategyCreated => "Strategy created"
  | Line.strategyCfgFunctions n => "Strategy CFG functions: " ++ toString n
  | Line.attemptingSymExec => "\nAttempting symbolic execution of main..."
  | Line.simExecResult => "Symbolic execution result: <result>"
  | Line.numStateTuples n => "Number of state tuples: " ++ toString n
  | Line.errorSimExec e => "ERROR in sim_exec_function: " ++ e
  | Line.errorSymPhase e => "ERROR in symbolic execution test: " ++ e

mutual

/-- The script's nested generator `iter_die` (lines 41-44): yield the DIE
itself, then recursively yield each child's subtree (depth-first pre-order). -/
def iter_die : Die → List Die
  | Die.mk t a cs => Die.mk t a cs :: iterChildren cs

/-- The flattening of `yield from iter_die(child)` over a child list. -/
def iterChildren : List Die → List Die
  | [] => []
  | c :: cs => iter_die c ++ iterChildren cs

end

/-- Lines 49-53: fetch `DW_AT_name`, take its value, decode byte strings. -/
def dieFuncName (die : Die) : Option AttrValue :=
  match attrGet die AT_name with
  | none => none
  | some attr =>
    some (match attr.value with
          | AttrValue.bytes s => AttrValue.str s
          | v => v)

/-- The `hasattr`-guarded print for one optional range-entry field. -/
def optLine (mk : Nat → Line) (o : Option Nat) : List Line :=
  match o with
  | some v => [mk v]
  | none => []

/-- Lines 95-104: resolve the high PC bound from `DW_AT_high_pc` given the
low bound.  `describe_form_class` (an external library call, outside any
try/except in the source) may raise; otherwise the bound is the attribute
value for form class `address`, low + value for `constant`, `None` for any
other class. -/
def lowHighFromAttrs (fc : String → Except String String) (low_pc : Nat)
    (highpc_attr : DieAttr) : Except String (Option Nat) :=
  match fc highpc_attr.form with
  | Except.error e => Except.error e
  | Except.ok highpc_class =>
    if highpc_class = CLASS_address then
      Except.ok (some highpc_attr.value.toNat)
    else if highpc_class = CLASS_constant then
      Except.ok (some (low_pc + highpc_attr.value.toNat))
    else
      Except.ok none

/-- Lines 49-111: process one subprogram DIE.  Returns the lines printed and
the increment to `subprog_with_pc` (0 or 1), or propagates an uncaught
exception (only `describe_form_class` can raise outside the inner
try/except; range-list resolution failures are caught by the inner guard
at lines 60-89 and reported). -/
def processSubprog (info : DwarfInfo) (fc : String → Except String String)
    (die : Die) : Except String (List Line × Nat) :=
  let func_name := dieFuncName die
  match attrGet die AT_ranges with
  | some rattr =>
    Except.ok
      (match info.rangeListAt rattr.value.toNat with
       | Except.error e =>
         ([Line.subprogramHeader func_name, Line.errorProcessingRanges e], 0)
       | Except.ok ranges =>
         let head := [Line.subprogramHeader func_name,
                      Line.hasRanges rattr.value.toNat, Line.rangeListType]
         match ranges with
         | [] => (head, 0)
         | first_range :: _ =>
           (head ++ [Line.firstRangeType, Line.firstRangeAttrs]
                 ++ optLine Line.hasBeginOffset first_range.begin_offset
                 ++ optLine Line.hasEndOffset first_range.end_offset
                 ++ optLine Line.hasBeginAddress first_range.begin_address
                 ++ optLine Line.hasEndAddress first_range.end_address
                 ++ optLine Line.hasStartOffset first_range.start_offset,
            1))
  | none =>
    match attrGet die AT_low_pc with
    | some lattr =>
      let low_pc := lattr.value.toNat
      match attrGet die AT_high_pc with
      | some highpc_attr =>
        match lowHighFromAttrs fc low_pc highpc_attr with
        | Except.error e => Except.error e
        | Except.ok high_pc =>
          Except.ok
            (match high_pc with
             | some hp =>
               if hp ≠ 0 then
                 ([Line.subprogramHeader func_name, Line.lowHighPc low_pc hp], 1)
               else ([], 0)
             | none => ([], 0))
      | none => Except.ok ([], 0)
    | none => Except.ok ([Line.noPcInfo func_name], 0)

/-- Lines 46-48: the per-CU DIE loop.  Returns printed lines, the increment
to `subprog_count`, and the increment to `subprog_with_pc`. -/
def processDies (info : DwarfInfo) (fc : String → Except String String) :
    List Die → Except String (List Line × Nat × Nat)
  | [] => Except.ok ([], 0, 0)
  | die :: rest =>
    if die.tag = TAG_subprogram then
      match processSubprog info fc die with
      | Except.error e => Except.error e
      | Except.ok (out, inc) =>
        match processDies info fc rest with
        | Except.error e => Except.error e
        | Except.ok (outR, t, w) => Except.ok (out ++ outR, t + 1, w + inc)
    else
      processDies info fc rest

/-- Lines 36-48: the CU loop, accumulating `cu_count`, `subprog_count`,
`subprog_with_pc` and the printed lines. -/
def processCUs (info : DwarfInfo) (fc : String → Except String String) :
    List CU → Except String (List Line × Nat × Nat × Nat)
  | [] => Except.ok ([], 0, 0, 0)
  | cu :: rest =>
    match processDies info fc (iter_die cu.topDie) with
    | Except.error e => Except.error e
    | Except.ok (out, t, w) =>
      match processCUs info fc rest with
      | Except.error e => Except.error e
      | Except.ok (outR, n, tR, wR) =>
        Except.ok (out ++ outR, n + 1, t + tR, w + wR)

/-- Lines 31-116: the DWARF summary phase — CU loop followed by the four
summary lines.  Not wrapped in any try/except in the source: an uncaught
exception propagates out of `main`. -/
def phase1 (info : DwarfInfo) (fc : String → Except String String) :
    Except String (List Line) :=
  match processCUs info fc info.cus with
  | Except.error e => Except.error e
  | Except.ok (out, cu_count, subprog_count, subprog_with_pc) =>
    Except.ok (out ++ [Line.summaryHeader, Line.cuCount cu_count,
                       Line.totalSubprogs subprog_count,
                       Line.withPcRange subprog_with_pc])

/-- A recovered CFG function object: name and size. -/
structure CfgFunc where
  name : String
  size : Nat
deriving DecidableEq, Repr

/-- Environment of external outcomes for the symbolic-execution phase
(lines 154-209).  Each `Except` models one external call that may raise. -/
structure SymEnv where
  angrImport : Except String String
  projectLoad : Except String Unit
  arch : String
  cfgBuild : Except String (List (Nat × CfgFunc))
  stratInit : Except String Nat
  simExec : Except String Nat

/-- The hard-coded address looked up in the CFG (line 175). -/
def MAIN_ADDR : Nat := 0x10908

/-- Dictionary `get` on the CFG function map (insertion-ordered). -/
def cfgLookup (funcs : List (Nat × CfgFunc)) (addr : Nat) : Option CfgFunc :=
  funcs.lookup addr

/-- Lines 156-204: the body of the symbolic-execution phase.  Returns the
lines printed and, when an exception escapes to the outer guard, the
exception (the inner try at lines 197-204 catches `sim_exec_function`
failures itself). -/
def phase3Body (env : SymEnv) : List Line × Option String :=
  match env.angrImport with
  | Except.error e => ([], some e)
  | Except.ok ver =>
    let o1 := [Line.angrVersion ver]
    match env.projectLoad with
    | Except.error e => (o1, some e)
    | Except.ok _ =>
      let o2 := o1 ++ [Line.projectLoaded, Line.architecture env.arch]
      match env.cfgBuild with
      | Except.error e => (o2 ++ [Line.generatingCfg], some e)
      | Except.ok funcs =>
        let o3 := o2 ++ [Line.generatingCfg, Line.cfgGenerated,
                         Line.cfgFunctionCount funcs.length, Line.cfgModelType]
        let lookupPart :=
          match cfgLookup funcs MAIN_ADDR with
          | some fn => [Line.mainFound MAIN_ADDR, Line.funcName fn.name,
                        Line.funcSize fn.size]
          | none => Line.warnMainNotFound MAIN_ADDR :: Line.availableFunctions ::
                    (funcs.take 10).map (fun p => Line.funcListing p.1 p.2.name)
        let o4 := o3 ++ lookupPart ++ [Line.stratHeader]
        match env.stratInit with
        | Except.error e => (o4, some e)
        | Except.ok nfuncs =>
          let o5 := o4 ++ [Line.strategyCreated, Line.strategyCfgFunctions nfuncs,
                           Line.attemptingSymExec]
          match env.simExec with
          | Except.error e => (o5 ++ [Line.errorSimExec e], none)
          | Except.ok n => (o5 ++ [Line.simExecResult, Line.numStateTuples n], none)

/-- Lines 154-209: the symbolic-execution phase.  The header prints before
the try; the outer except catches any exception from the body and logs it,
so this phase always returns (never propagates). -/
def phase3 (env : SymEnv) : List Line :=
  Line.symHeader ::
    (match phase3Body env with
     | (out, none) => out
     | (out, some e) => out ++ [Line.errorSymPhase e])

/-- How the script run ends: `sys.exit(code)`, an uncaught exception, or
falling off the end of `main`. -/
inductive Termination where
  | exitCode (n : Nat)
  | uncaughtExc (e : String)
  | normal
deriving DecidableEq, Repr

/-- The whole external environment of one run. -/
structure World where
  argv : List String
  pyVersion : String
  hasDwarf : Bool
  dwarf : DwarfInfo
  formClass : String → Except String String
  tygrBody : Except String (List Line)
  sym : SymEnv

/-- Lines 118-151: the TYGR cross-check phase.  The header prints before the
try; the body delegates entirely to helper functions outside this file
(`src.analysis.dwarf`), abstracted here as its outcome `w.tygrBody`; the
except catches any exception and logs it, so this phase always returns. -/
def phase2 (w : World) : List Line :=
  Line.tygrHeader ::
    (match w.tygrBody with
     | Except.ok out => out
     | Except.error e => [Line.errorTygr e])

/-- Lines 9-209: the script's `main` (named `scriptMain` here because Lean reserves `main` for executables).  Usage check, open the binary (assumed readable —
no claim concerns an unreadable path), DWARF presence check with
`sys.exit(1)`, then the three phases in order.  Only phases 2 and 3 are
guarded by their own try/except; an exception escaping phase 1 propagates
out of `main` and the later phases never run. -/
def scriptMain (w : World) : List Line × Termination :=
  match w.argv with
  | _ :: binary_path :: _ =>
    let out0 := [Line.analyzing binary_path, Line.pyelftoolsVersion w.pyVersion]
    if w.hasDwarf then
      match phase1 w.dwarf w.formClass with
      | Except.error e => (out0 ++ [Line.dwarfInfoFound], Termination.uncaughtExc e)
      | Except.ok p1 =>
        (out0 ++ [Line.dwarfInfoFound] ++ p1 ++ phase2 w ++ phase3 w.sym,
         Termination.normal)
    else
      (out0 ++ [Line.errorNoDwarf], Termination.exitCode 1)
  | _ => ([Line.usage], Termination.exitCode 1)

mutual

/-- The number of DIEs tagged `DW_TAG_subprogram` in the subtree of a DIE,
defined directly on the tree (independent of `iter_die`). -/
def subprogsInTree : Die → Nat
  | Die.mk t _ cs => (if t = TAG_subprogram then 1 else 0) + subprogsInList cs

/-- Sum of `subprogsInTree` over a list of DIEs. -/
def subprogsInList : List Die → Nat
  | [] => 0
  | c :: cs => subprogsInTree c + subprogsInList cs

end

mutual

/-- How many positions in the subtree of a DIE hold a DIE equal to `x`. -/
def subtreeOcc (x : Die) : Die → Nat
  | Die.mk t a cs => (if Die.mk t a cs = x then 1 else 0) + subtreeOccList x cs

/-- Sum of `subtreeOcc x` over a list of DIEs. -/
def subtreeOccList (x : Die) : List Die → Nat
  | [] => 0
  | c :: cs => subtreeOcc x c + subtreeOccList x cs

end

/-- The number of range entries whose contents the script prints: each
examined entry produces exactly one `First range entry type:` line. -/
def rangeEntriesPrinted (out : List Line) : Nat :=
  out.countP (fun l => match l with
                       | Line.firstRangeType => true
                       | _ => false)

/-- Total subprograms across all CU DIE trees of a DWARF handle. -/
def dwarfSubprogTotal (info : DwarfInfo) : Nat :=
  subprogsInList (info.cus.map (fun cu => cu.topDie))

/-- Number of subprogram-tagged DIEs in a flat list (what the per-CU loop
counts as it walks `iter_die`). -/
def flatSubprogCount (ds : List Die) : Nat :=
  ds.countP (fun d => decide (d.tag = TAG_subprogram))

theorem iterChildren_eq_join : ∀ cs : List Die, iterChildren cs = (cs.map iter_die).flatten
  | [] => rfl
  | c :: cs => by rw [iterChildren, iterChildren_eq_join cs, List.map_cons, List.flatten_cons]

mutual

theorem count_iter_die (x : Die) : (d : Die) → (iter_die d).count x = subtreeOcc x d
  | Die.mk t a cs => by
    rw [iter_die, subtreeOcc, List.count_cons, count_iterChildren x cs]
    by_cases h : Die.mk t a cs = x <;> simp [h] <;> omega

theorem count_iterChildren (x : Die) :
    (cs : List Die) → (iterChildren cs).count x = subtreeOccList x cs
  | [] => by rw [iterChildren, subtreeOccList, List.count_nil]
  | c :: cs => by
    rw [iterChildren, subtreeOccList, List.count_append, count_iter_die x c,
      count_iterChildren x cs]

end

mutual

theorem flatCount_iter_die : (d : Die) → flatSubprogCount (iter_die d) = subprogsInTree d
  | Die.mk t a cs => by
    rw [iter_die, subprogsInTree, flatSubprogCount, List.countP_cons,
      ← flatSubprogCount, flatCount_iterChildren cs]
    by_cases h : t = TAG_subprogram <;> simp [Die.tag, h] <;> omega

theorem flatCount_iterChildren :
    (cs : List Die) → flatSubprogCount (iterChildren cs) = subprogsInList cs
  | [] => by rw [iterChildren, subprogsInList]; rfl
  | c :: cs => by
    rw [iterChildren, subprogsInList, flatSubprogCount, List.countP_append,
      ← flatSubprogCount, ← flatSubprogCount, flatCount_iter_die c,
      flatCount_iterChildren cs]

end

theorem processDies_total_count (info : DwarfInfo) (fc : String → Except String String)
    (ds : List Die) :
    ∀ out t wc, processDies info fc ds = Except.ok (out, t, wc) →
      t = flatSubprogCount ds := by
  induction ds with
  | nil =>
    intro out t wc h
    simp only [processDies] at h
    cases h
    rfl
  | cons d ds ih =>
    intro out t wc h
    rw [processDies] at h
    by_cases htag : d.tag = TAG_subprogram
    · rw [if_pos htag] at h
      cases hps : processSubprog info fc d with
      | error e => rw [hps] at h; cases h
      | ok p =>
        obtain ⟨o, inc⟩ := p
        rw [hps] at h
        cases hds : processDies info fc ds with
        | error e => rw [hds] at h; cases h
        | ok q =>
          obtain ⟨oR, tR, wR⟩ := q
          rw [hds] at h
          cases h
          rw [flatSubprogCount, List.countP_cons, ← flatSubprogCount]
          simp [htag, ih _ _ _ hds]
    · rw [if_neg htag] at h
      rw [flatSubprogCount, List.countP_cons, ← flatSubprogCount]
      simp [htag, ih _ _ _ h]

theorem processCUs_counts (info : DwarfInfo) (fc : String → Except String String)
    (cus : List CU) :
    ∀ out n t wc, processCUs info fc cus = Except.ok (out, n, t, wc) →
      n = cus.length ∧ t = subprogsInList (cus.map (fun cu => cu.topDie)) := by
  induction cus with
  | nil =>
    intro out n t wc h
    simp only [processCUs] at h
    cases h
    exact ⟨rfl, rfl⟩
  | cons cu cus ih =>
    intro out n t wc h
    rw [processCUs] at h
    cases hds : processDies info fc (iter_die cu.topDie) with
    | error e => rw [hds] at h; cases h
    | ok p =>
      obtain ⟨o, t1, w1⟩ := p
      rw [hds] at h
      cases hcs : processCUs info fc cus with
      | error e => rw [hcs] at h; cases h
      | ok q =>
        obtain ⟨oR, nR, tR, wR⟩ := q
        rw [hcs] at h
        cases h
        obtain ⟨hn, ht⟩ := ih _ _ _ _ hcs
        constructor
        · rw [hn]; simp [List.length_cons]
        · rw [List.map_cons, subprogsInList, ht,
            processDies_total_count info fc _ _ _ _ hds, flatCount_iter_die]

/-- Concrete form codes and strings used by the witness/counterexample runs. -/
def FORM_addr : String := "DW_FORM_addr"

def FORM_data4 : String := "DW_FORM_data4"

def FORM_weird : String := "DW_FORM_weird"

def KEYERR : String := "KeyError: DW_FORM_weird"

/-- A numeric attribute with the given value and form. -/
def attrNum (n : Nat) (f : String) : DieAttr :=
  { value := AttrValue.num n, form := f }

/-- A form-class table: `addr` is class `address`, `data4` is class
`constant`, `exprloc` is some other class; anything else raises. -/
def fcTable : String → Except String String :=
  fun f =>
    if f = FORM_addr then Except.ok CLASS_address
    else if f = FORM_data4 then Except.ok CLASS_constant
    else if f = FORM_weird then Except.ok ("exprloc")
    else Except.error KEYERR

/-- A DWARF handle with no CUs and empty range lists (for per-DIE tests). -/
def info0 : DwarfInfo :=
  { cus := [], rangeListAt := fun _ => Except.ok [] }

/-- C1 theorem: a subprogram DIE with no ranges attribute but low/high PC
attributes resolves low = the low_pc value directly and high = the high_pc
value for form class address, low + value for class constant, and None for
any other class; in the address case with a nonzero value the printed line
carries exactly those bounds. -/
theorem c1_low_high_pc_bounds (info : DwarfInfo) (fc : String → Except String String)
    (die : Die) (la ha : DieAttr) (lo hv : Nat)
    (htag : die.tag = TAG_subprogram)
    (hr : attrGet die AT_ranges = none)
    (hl : attrGet die AT_low_pc = some la)
    (hh : attrGet die AT_high_pc = some ha)
    (hlv : la.value = AttrValue.num lo)
    (hhv : ha.value = AttrValue.num hv) :
    (fc ha.form = Except.ok CLASS_address →
       lowHighFromAttrs fc lo ha = Except.ok (some hv))
  ∧ (fc ha.form = Except.ok CLASS_constant →
       lowHighFromAttrs fc lo ha = Except.ok (some (lo + hv)))
  ∧ (∀ c, fc ha.form = Except.ok c → c ≠ CLASS_address → c ≠ CLASS_constant →
       lowHighFromAttrs fc lo ha = Except.ok none)
  ∧ (fc ha.form = Except.ok CLASS_address → hv ≠ 0 →
       processSubprog info fc die =
         Except.ok ([Line.subprogramHeader (dieFuncName die),
                     Line.lowHighPc lo hv], 1)) := by
  have haddr : CLASS_address ≠ CLASS_constant := by decide
  refine ⟨?_, ?_, ?_, ?_⟩
  · intro hfc
    rw [lowHighFromAttrs, hfc]
    simp [hhv, AttrValue.toNat]
  · intro hfc
    rw [lowHighFromAttrs, hfc]
    simp [hhv, AttrValue.toNat, haddr.symm]
  · intro c hfc hc1 hc2
    rw [lowHighFromAttrs, hfc]
    simp [hc1, hc2]
  · intro hfc hhv0
    rw [processSubprog]
    simp only [hr, hl, hh]
    rw [lowHighFromAttrs, hfc]
    simp [hlv, hhv, AttrValue.toNat, hhv0]

/-- A subprogram DIE carrying only low/high PC attributes (address form). -/
def die1 : Die :=
  Die.mk TAG_subprogram
    [(AT_low_pc, attrNum 4096 FORM_addr), (AT_high_pc, attrNum 4196 FORM_addr)] []

/-- C1 witness: the bounds resolved for `die1` under `fcTable`. -/
theorem c1_witness :
    processSubprog info0 fcTable die1 =
      Except.ok ([Line.subprogramHeader none, Line.lowHighPc 4096 4196], 1) :=
  (c1_low_high_pc_bounds info0 fcTable die1 (attrNum 4096 FORM_addr)
    (attrNum 4196 FORM_addr) 4096 4196 rfl rfl rfl rfl rfl rfl).2.2.2 rfl
    (by decide)

/-- C3 theorem: in the low/high branch, a present high_pc attribute whose
resolved bound is falsy (None from an unrecognized class, or zero) yields
no printed line and no with-PC-range increment. -/
theorem c3_falsy_high_pc (info : DwarfInfo) (fc : String → Except String String)
    (die : Die) (la ha : DieAttr)
    (htag : die.tag = TAG_subprogram)
    (hr : attrGet die AT_ranges = none)
    (hl : attrGet die AT_low_pc = some la)
    (hh : attrGet die AT_high_pc = some ha)
    (hfalsy : lowHighFromAttrs fc la.value.toNat ha = Except.ok none ∨
              lowHighFromAttrs fc la.value.toNat ha = Except.ok (some 0)) :
    processSubprog info fc die = Except.ok ([], 0) := by
  rcases hfalsy with h | h
  · rw [processSubprog]
    simp only [hr, hl, hh]
    rw [h]
  · rw [processSubprog]
    simp only [hr, hl, hh]
    rw [h]
    simp

/-- A subprogram DIE whose high_pc form resolves to a class that is neither
address nor constant. -/
def die3 : Die :=
  Die.mk TAG_subprogram
    [(AT_low_pc, attrNum 4096 FORM_addr), (AT_high_pc, attrNum 64 FORM_weird)] []

/-- C3 witness: `die3`'s unresolvable high bound prints nothing and counts 0. -/
theorem c3_witness : processSubprog info0 fcTable die3 = Except.ok ([], 0) :=
  c3_falsy_high_pc info0 fcTable die3 (attrNum 4096 FORM_addr)
    (attrNum 64 FORM_weird) rfl rfl rfl rfl (Or.inl rfl)

/-- C4 theorem: a subprogram DIE with neither ranges nor low_pc attribute is
reported as NO PC INFO, adds 1 to the total subprogram count and 0 to the
with-PC-range count. -/
theorem c4_no_pc_info (info : DwarfInfo) (fc : String → Except String String)
    (die : Die)
    (htag : die.tag = TAG_subprogram)
    (hr : attrGet die AT_ranges = none)
    (hl : attrGet die AT_low_pc = none) :
    processSubprog info fc die = Except.ok ([Line.noPcInfo (dieFuncName die)], 0)
  ∧ (∀ ds out t wc, processDies info fc ds = Except.ok (out, t, wc) →
       processDies info fc (die :: ds) =
         Except.ok (Line.noPcInfo (dieFuncName die) :: out, t + 1, wc)) := by
  have h1 : processSubprog info fc die =
      Except.ok ([Line.noPcInfo (dieFuncName die)], 0) := by
    rw [processSubprog]
    simp only [hr, hl]
  refine ⟨h1, ?_⟩
  intro ds out t wc hds
  rw [processDies, if_pos htag, h1, hds]
  simp

/-- A subprogram DIE with only a name attribute. -/
def die4 : Die :=
  Die.mk TAG_subprogram [(AT_name, { value := AttrValue.bytes ("foo"), form := FORM_addr })] []

/-- C4 witness: `die4` is reported NO PC INFO and counted only in the total. -/
theorem c4_witness :
    processSubprog info0 fcTable die4 =
      Except.ok ([Line.noPcInfo (some (AttrValue.str ("foo")))], 0)
  ∧ processDies info0 fcTable [die4] =
      Except.ok ([Line.noPcInfo (some (AttrValue.str ("foo")))], 1, 0) := by
  have h := c4_no_pc_info info0 fcTable die4 rfl rfl rfl
  exact ⟨h.1, h.2 [] [] 0 0 rfl⟩

/-- C2 theorem: with a binary argument present but no DWARF info, the script
prints the literal error message as its final line and exits with status 1;
the full output shows no compilation-unit or subprogram processing occurred. -/
theorem c2_no_dwarf_exit (w : World) (a0 p : String) (rest : List String)
    (hargv : w.argv = a0 :: p :: rest)
    (hd : w.hasDwarf = false) :
    scriptMain w =
      ([Line.analyzing p, Line.pyelftoolsVersion w.pyVersion, Line.errorNoDwarf],
       Termination.exitCode 1)
  ∧ render Line.errorNoDwarf = "ERROR: No DWARF info in binary" := by
  constructor
  · rw [scriptMain, hargv]
    simp [hd]
  · rfl

/-- An environment for the symbolic-execution phase in which everything
succeeds and the CFG contains the hard-coded main address. -/
def symOk : SymEnv :=
  { angrImport := Except.ok ("9.2"), projectLoad := Except.ok (),
    arch := "ARMEL", cfgBuild := Except.ok [(MAIN_ADDR, { name := "main", size := 64 })],
    stratInit := Except.ok 1, simExec := Except.ok 3 }

/-- A world whose binary lacks DWARF info. -/
def w2 : World :=
  { argv := ["diagnose_dwarf.py", "a.out"], pyVersion := "0.29",
    hasDwarf := false, dwarf := info0, formClass := fcTable,
    tygrBody := Except.ok [], sym := symOk }

/-- C2 witness: the no-DWARF run at a concrete world. -/
theorem c2_witness :
    scriptMain w2 =
      ([Line.analyzing ("a.out"), Line.pyelftoolsVersion ("0.29"), Line.errorNoDwarf],
       Termination.exitCode 1)
  ∧ render Line.errorNoDwarf = "ERROR: No DWARF info in binary" :=
  c2_no_dwarf_exit w2 ("diagnose_dwarf.py") ("a.out") [] rfl rfl

/-- C5 theorem: whenever the DWARF summary phase completes, its summary
reports exactly the number of compilation units and exactly the number of
subprogram-tagged DIEs across all CU DIE trees. -/
theorem c5_summary_counts (info : DwarfInfo) (fc : String → Except String String)
    (out : List Line)
    (h : phase1 info fc = Except.ok out) :
    ∃ body wc,
      out = body ++ [Line.summaryHeader, Line.cuCount info.cus.length,
                     Line.totalSubprogs (dwarfSubprogTotal info),
                     Line.withPcRange wc] := by
  rw [phase1] at h
  cases hcu : processCUs info fc info.cus with
  | error e => rw [hcu] at h; cases h
  | ok q =>
    obtain ⟨body, n, t, wc⟩ := q
    rw [hcu] at h
    cases h
    obtain ⟨hn, ht⟩ := processCUs_counts info fc info.cus _ _ _ _ hcu
    exact ⟨body, wc, by rw [hn, ht, dwarfSubprogTotal]⟩

/-- A DWARF handle with one CU holding a root DIE with two subprogram
children (one with PC attributes, one bare). -/
def info5 : DwarfInfo :=
  { cus := [{ topDie := Die.mk ("DW_TAG_compile_unit") [] [die1, die4] }],
    rangeListAt := fun _ => Except.ok [] }

/-- C5 witness: the summary of `info5` reports 1 CU and 2 subprograms. -/
theorem c5_witness :
    ∃ body wc,
      [Line.subprogramHeader none, Line.lowHighPc 4096 4196,
       Line.noPcInfo (some (AttrValue.str ("foo"))),
       Line.summaryHeader, Line.cuCount 1, Line.totalSubprogs 2, Line.withPcRange 1] =
        body ++ [Line.summaryHeader, Line.cuCount info5.cus.length,
                 Line.totalSubprogs (dwarfSubprogTotal info5),
                 Line.withPcRange wc] :=
  c5_summary_counts info5 fcTable _ rfl

/-- C6 counterexample data: a range entry with no probed fields, a handle
resolving every ranges offset to a two-entry list, and a subprogram DIE
carrying a ranges attribute. -/
def re0 : RangeEntry :=
  { begin_offset := none, end_offset := none, begin_address := none,
    end_address := none, start_offset := none }

def info6 : DwarfInfo :=
  { cus := [], rangeListAt := fun _ => Except.ok [re0, re0] }

def die6 : Die :=
  Die.mk TAG_subprogram [(AT_ranges, attrNum 0 FORM_data4)] []

def c6out : List Line :=
  [Line.subprogramHeader none, Line.hasRanges 0, Line.rangeListType,
   Line.firstRangeType, Line.firstRangeAttrs]

/-- C6 counterexample: a subprogram whose ranges attribute resolves to a
two-entry range list has exactly one range entry printed (the first), not
two: the printed-entry count differs from the resolved list's length. -/
theorem c6_counterexample :
    info6.rangeListAt 0 = Except.ok [re0, re0]
  ∧ [re0, re0].length = 2
  ∧ processSubprog info6 fcTable die6 = Except.ok (c6out, 1)
  ∧ rangeEntriesPrinted c6out ≠ [re0, re0].length := by
  refine ⟨rfl, rfl, rfl, by decide⟩

/-- C6 amended theorem: for a subprogram reporting via the ranges branch
with a non-empty resolved range list, the script examines and prints
exactly one range entry (the first), whatever the list's length. -/
theorem c6_first_entry_only (info : DwarfInfo) (fc : String → Except String String)
    (die : Die) (rattr : DieAttr) (e : RangeEntry) (rest : List RangeEntry)
    (htag : die.tag = TAG_subprogram)
    (hr : attrGet die AT_ranges = some rattr)
    (hres : info.rangeListAt rattr.value.toNat = Except.ok (e :: rest)) :
    ∃ out, processSubprog info fc die = Except.ok (out, 1)
         ∧ rangeEntriesPrinted out = 1 := by
  refine ⟨[Line.subprogramHeader (dieFuncName die), Line.hasRanges rattr.value.toNat,
           Line.rangeListType, Line.firstRangeType, Line.firstRangeAttrs]
          ++ optLine Line.hasBeginOffset e.begin_offset
          ++ optLine Line.hasEndOffset e.end_offset
          ++ optLine Line.hasBeginAddress e.begin_address
          ++ optLine Line.hasEndAddress e.end_address
          ++ optLine Line.hasStartOffset e.start_offset, ?_, ?_⟩
  · rw [processSubprog]
    simp only [hr]
    rw [hres]
    simp
  · obtain ⟨bo, eo, ba, ea, so⟩ := e
    cases bo <;> cases eo <;> cases ba <;> cases ea <;> cases so <;> rfl

/-- C6 amended-claim witness: `die6` under `info6`. -/
theorem c6_witness :
    ∃ out, processSubprog info6 fcTable die6 = Except.ok (out, 1)
         ∧ rangeEntriesPrinted out = 1 :=
  c6_first_entry_only info6 fcTable die6 (attrNum 0 FORM_data4) re0 [re0]
    rfl rfl rfl

/-- A subprogram DIE with low/high PC attributes whose high form the
form-class table refuses to describe. -/
def die7 : Die :=
  Die.mk TAG_subprogram
    [(AT_low_pc, attrNum 4096 FORM_addr), (AT_high_pc, attrNum 100 FORM_weird)] []

def info7 : DwarfInfo :=
  { cus := [{ topDie := die7 }], rangeListAt := fun _ => Except.ok [] }

/-- A world in which `describe_form_class` raises while the DWARF summary
phase walks `die7`. -/
def w7 : World :=
  { argv := ["diagnose_dwarf.py", "a.out"], pyVersion := "0.29",
    hasDwarf := true, dwarf := info7,
    formClass := fun _ => Except.error KEYERR,
    tygrBody := Except.ok [], sym := symOk }

/-- C7 counterexample: an exception inside the DWARF summary phase (from
`describe_form_class`, which no try/except in that phase covers) escapes
`main` uncaught, and neither the cross-check phase nor the
symbolic-execution phase runs. -/
theorem c7_counterexample :
    scriptMain w7 =
      ([Line.analyzing ("a.out"), Line.pyelftoolsVersion ("0.29"),
        Line.dwarfInfoFound], Termination.uncaughtExc KEYERR)
  ∧ Line.tygrHeader ∉ (scriptMain w7).1
  ∧ Line.symHeader ∉ (scriptMain w7).1 := by
  refine ⟨by decide, by decide, by decide⟩

/-- C7 amended theorem: only the cross-check and symbolic-execution phases
are guarded; whenever the DWARF summary phase completes, both later phases
run to completion (their own failures being caught inside them) and the
script terminates normally, with a cross-check failure merely logged. -/
theorem c7_phase_guards (w : World) (a0 p : String) (rest : List String)
    (out1 : List Line)
    (hargv : w.argv = a0 :: p :: rest)
    (hd : w.hasDwarf = true)
    (h1 : phase1 w.dwarf w.formClass = Except.ok out1) :
    scriptMain w =
      ([Line.analyzing p, Line.pyelftoolsVersion w.pyVersion, Line.dwarfInfoFound]
        ++ out1 ++ phase2 w ++ phase3 w.sym, Termination.normal)
  ∧ (∀ e, w.tygrBody = Except.error e →
       phase2 w = [Line.tygrHeader, Line.errorTygr e]) := by
  constructor
  · rw [scriptMain, hargv]
    simp [hd, h1]
  · intro e he
    rw [phase2, he]

/-- A world whose cross-check phase raises but whose DWARF summary succeeds. -/
def w7b : World :=
  { argv := ["diagnose_dwarf.py", "a.out"], pyVersion := "0.29",
    hasDwarf := true, dwarf := info7, formClass := fcTable,
    tygrBody := Except.error ("ImportError"), sym := symOk }

/-- C7 amended-claim witness: the cross-check failure in `w7b` is caught and
logged by that phase's guard. -/
theorem c7_witness :
    phase2 w7b = [Line.tygrHeader, Line.errorTygr ("ImportError")] :=
  (c7_phase_guards w7b ("diagnose_dwarf.py") ("a.out") []
    [Line.summaryHeader, Line.cuCount 1, Line.totalSubprogs 1, Line.withPcRange 0]
    rfl rfl rfl).2 ("ImportError") rfl

/-- C8 theorem: `iter_die` yields the root first, then the children's
traversals in order (pre-order), and every DIE value appears in the
traversal exactly as often as it occurs as a subtree position. -/
theorem c8_iter_die_preorder :
    (∀ t a cs, iter_die (Die.mk t a cs) = Die.mk t a cs :: (cs.map iter_die).flatten)
  ∧ (∀ d x, (iter_die d).count x = subtreeOcc x d) := by
  constructor
  · intro t a cs
    rw [iter_die, iterChildren_eq_join cs]
  · intro d x
    exact count_iter_die x d

/-- C9 theorem: when the CFG builds but the hard-coded main address is not in
its function map, the phase prints the warning, lists the first at-most-ten
discovered functions (address and name), raises nothing there, and
continues into the dominator-strategy part. -/
theorem c9_cfg_main_absent (env : SymEnv) (ver : String)
    (funcs : List (Nat × CfgFunc))
    (h1 : env.angrImport = Except.ok ver)
    (h2 : env.projectLoad = Except.ok ())
    (h3 : env.cfgBuild = Except.ok funcs)
    (h4 : cfgLookup funcs MAIN_ADDR = none) :
    ∃ rest,
      phase3 env =
        [Line.symHeader, Line.angrVersion ver, Line.projectLoaded,
         Line.architecture env.arch, Line.generatingCfg, Line.cfgGenerated,
         Line.cfgFunctionCount funcs.length, Line.cfgModelType,
         Line.warnMainNotFound MAIN_ADDR, Line.availableFunctions]
        ++ (funcs.take 10).map (fun p => Line.funcListing p.1 p.2.name)
        ++ Line.stratHeader :: rest
    ∧ (funcs.take 10).length = min 10 funcs.length
    ∧ (funcs.take 10).length ≤ 10 := by
  have hlen : (funcs.take 10).length = min 10 funcs.length := List.length_take 10 funcs
  have hle : (funcs.take 10).length ≤ 10 := by rw [hlen]; exact Nat.min_le_left 10 _
  cases hs : env.stratInit with
  | error e =>
    refine ⟨[Line.errorSymPhase e], ?_, hlen, hle⟩
    rw [phase3, phase3Body, h1, h2, h3, hs]
    simp [h4]
  | ok nfuncs =>
    cases hx : env.simExec with
    | error e =>
      refine ⟨[Line.strategyCreated, Line.strategyCfgFunctions nfuncs,
               Line.attemptingSymExec, Line.errorSimExec e], ?_, hlen, hle⟩
      rw [phase3, phase3Body, h1, h2, h3, hs, hx]
      simp [h4]
    | ok n =>
      refine ⟨[Line.strategyCreated, Line.strategyCfgFunctions nfuncs,
               Line.attemptingSymExec, Line.simExecResult,
               Line.numStateTuples n], ?_, hlen, hle⟩
      rw [phase3, phase3Body, h1, h2, h3, hs, hx]
      simp [h4]

/-- Twelve discovered CFG functions, none at the hard-coded main address. -/
def funcs9 : List (Nat × CfgFunc) :=
  [(0, { name := "f0", size := 4 }), (4, { name := "f1", size := 4 }),
   (8, { name := "f2", size := 4 }), (12, { name := "f3", size := 4 }),
   (16, { name := "f4", size := 4 }), (20, { name := "f5", size := 4 }),
   (24, { name := "f6", size := 4 }), (28, { name := "f7", size := 4 }),
   (32, { name := "f8", size := 4 }), (36, { name := "f9", size := 4 }),
   (40, { name := "f10", size := 4 }), (44, { name := "f11", size := 4 })]

def env9 : SymEnv :=
  { angrImport := Except.ok ("9.2"), projectLoad := Except.ok (),
    arch := "ARMEL", cfgBuild := Except.ok funcs9,
    stratInit := Except.ok 12, simExec := Except.ok 0 }

/-- C9 witness: with twelve functions and the main address absent, the phase
warns, lists exactly ten functions, and continues. -/
theorem c9_witness :
    ∃ rest,
      phase3 env9 =
        [Line.symHeader, Line.angrVersion ("9.2"), Line.projectLoaded,
         Line.architecture env9.arch, Line.generatingCfg, Line.cfgGenerated,
         Line.cfgFunctionCount funcs9.length, Line.cfgModelType,
         Line.warnMainNotFound MAIN_ADDR, Line.availableFunctions]
        ++ (funcs9.take 10).map (fun p => Line.funcListing p.1 p.2.name)
        ++ Line.stratHeader :: rest
    ∧ (funcs9.take 10).length = min 10 funcs9.length
    ∧ (funcs9.take 10).length ≤ 10 :=
  c9_cfg_main_absent env9 ("9.2") funcs9 rfl rfl rfl rfl

/-- C10 theorem: a subprogram DIE with a low_pc but no usable high bound
(high_pc absent, or resolving to None or zero), and one whose ranges
attribute resolves to an empty list, are silently skipped: the with-PC
increment is 0 and no NO PC INFO line is printed. -/
theorem c10_silent_skip (info : DwarfInfo) (fc : String → Except String String)
    (die : Die)
    (htag : die.tag = TAG_subprogram) :
    (∀ la, attrGet die AT_ranges = none → attrGet die AT_low_pc = some la →
       attrGet die AT_high_pc = none →
       processSubprog info fc die = Except.ok ([], 0))
  ∧ (∀ la ha, attrGet die AT_ranges = none → attrGet die AT_low_pc = some la →
       attrGet die AT_high_pc = some ha →
       (lowHighFromAttrs fc la.value.toNat ha = Except.ok none ∨
        lowHighFromAttrs fc la.value.toNat ha = Except.ok (some 0)) →
       processSubprog info fc die = Except.ok ([], 0))
  ∧ (∀ ra, attrGet die AT_ranges = some ra →
       info.rangeListAt ra.value.toNat = Except.ok [] →
       processSubprog info fc die =
         Except.ok ([Line.subprogramHeader (dieFuncName die),
                     Line.hasRanges ra.value.toNat, Line.rangeListType], 0)) := by
  refine ⟨?_, ?_, ?_⟩
  · intro la hr hl hh
    rw [processSubprog]
    simp only [hr, hl, hh]
  · intro la ha hr hl hh hf
    rcases hf with h | h
    · rw [processSubprog]
      simp only [hr, hl, hh]
      rw [h]
    · rw [processSubprog]
      simp only [hr, hl, hh]
      rw [h]
      simp
  · intro ra hr hres
    rw [processSubprog]
    simp only [hr]
    rw [hres]

/-- A subprogram DIE with a low_pc attribute and no high_pc attribute. -/
def die10 : Die :=
  Die.mk TAG_subprogram [(AT_low_pc, attrNum 4096 FORM_addr)] []

/-- C10 witness: `die10` is silently skipped. -/
theorem c10_witness : processSubprog info0 fcTable die10 = Except.ok ([], 0) :=
  (c10_silent_skip info0 fcTable die10 rfl).1 (attrNum 4096 FORM_addr) rfl rfl rfl
